import Mathlib

/-!
Verification development for the ultra-search core: a shallow embedding of
the capability registry (core/registry.py), the synchronous executor
(core/executor.py) and the durable background task queue (core/task_queue.py),
together with theorems settling the frozen specification claims.

Modelling conventions:
* the SQLite `tasks` table is an association list from task ids to rows;
  a SQL UPDATE ... WHERE task_id = ? maps over the rows with matching key
  (a no-op when no row matches), INSERT prepends a row;
* `datetime.utcnow()` is an abstract clock value passed to each operation
  as a `now : Nat` argument;
* `uuid.uuid4().hex[:12]` fresh-id generation is modelled by a fresh-name
  oracle: the queue carries a counter `nextId` and ids are naturals;
* a tool class is modelled by its observable behaviour: a function from the
  serialized input to an outcome, either a success payload (with the optional
  `provider` attribute of the result) or a raised exception, represented as
  an exception kind (`type(e).__name__`) plus message (`str(e)`);
* wall-clock durations (`execution_time_ms`, `total_time_ms`) are not
  modelled; the field is kept at 0.
-/

namespace UltraSearch

/-! ### Task queue data model (core/task_queue.py) -/

/-- Status of a background task (`TaskStatus`). -/
inductive TaskStatus
  | pending
  | running
  | completed
  | failed
  | cancelled
deriving DecidableEq, Repr

/-- The terminal statuses, i.e. the tuple
`(TaskStatus.COMPLETED, TaskStatus.FAILED, TaskStatus.CANCELLED)` used in
`update_task_status`. -/
def TaskStatus.isTerminal : TaskStatus → Bool
  | .completed => true
  | .failed => true
  | .cancelled => true
  | _ => false

/-- One row of the `tasks` table (also the `TaskInfo` dataclass, which copies
the row field by field).  `none` models SQL NULL.  Default values mirror the
schema defaults (`progress INTEGER DEFAULT 0`, the rest NULL). -/
structure TaskRecord where
  tool_name : String
  query : String
  status : TaskStatus
  created_at : Nat
  started_at : Option Nat := none
  completed_at : Option Nat := none
  progress : Int := 0
  output_file : Option String := none
  error : Option String := none
  result_json : Option String := none
  provider : Option String := none
  estimated_duration_seconds : Option Int := none
  input_json : String
deriving DecidableEq, Repr

/-- The SQLite-backed store of `TaskQueue`: the rows of the `tasks` table plus
the fresh-id oracle counter. -/
structure TaskQueue where
  tasks : List (Nat × TaskRecord)
  nextId : Nat
deriving DecidableEq, Repr

/-- `SELECT * FROM tasks WHERE task_id = ?` (first matching row). -/
def TaskQueue.get_task (q : TaskQueue) (task_id : Nat) : Option TaskRecord :=
  (q.tasks.find? (fun p => p.1 == task_id)).map Prod.snd

/-- `TaskQueue.create_task`: INSERT a new PENDING row with `created_at = now`;
columns absent from the INSERT take their schema defaults.  Returns the new
store and the fresh task id. -/
def TaskQueue.create_task (q : TaskQueue) (tool_name query : String)
    (input_data : String) (output_file : Option String := none)
    (estimated_duration : Option Int := none) (now : Nat := 0) :
    TaskQueue × Nat :=
  let task_id := q.nextId
  let row : TaskRecord :=
    { tool_name := tool_name
      query := query
      status := .pending
      created_at := now
      output_file := output_file
      estimated_duration_seconds := estimated_duration
      input_json := input_data }
  ({ tasks := (task_id, row) :: q.tasks, nextId := q.nextId + 1 }, task_id)

/-- The `updates` dictionary of `TaskQueue.update_task_status` applied to one
row: always sets `status`; sets `started_at` only when the new status is
RUNNING and no progress value was supplied; sets `completed_at` whenever the
new status is terminal; sets `progress` and `error` when supplied. -/
def applyStatusUpdate (r : TaskRecord) (status : TaskStatus)
    (progress : Option Int) (error : Option String) (now : Nat) : TaskRecord :=
  let r1 := { r with status := status }
  let r2 :=
    if status = TaskStatus.running ∧ progress = none then
      { r1 with started_at := some now }
    else r1
  let r3 :=
    if status.isTerminal then { r2 with completed_at := some now } else r2
  let r4 := match progress with
    | some p => { r3 with progress := p }
    | none => r3
  match error with
  | some e => { r4 with error := some e }
  | none => r4

/-- `UPDATE tasks SET ... WHERE task_id = ?`: rewrite every matching row with
`f`, leave the rest (and the store) unchanged. -/
def updateWhere (tasks : List (Nat × TaskRecord)) (task_id : Nat)
    (f : TaskRecord → TaskRecord) : List (Nat × TaskRecord) :=
  tasks.map (fun p => if p.1 = task_id then (p.1, f p.2) else p)

/-- `TaskQueue.update_task_status`. -/
def TaskQueue.update_task_status (q : TaskQueue) (task_id : Nat)
    (status : TaskStatus) (progress : Option Int := none)
    (error : Option String := none) (now : Nat := 0) : TaskQueue :=
  { q with
    tasks := updateWhere q.tasks task_id
      (fun r => applyStatusUpdate r status progress error now) }

/-- `TaskQueue.save_task_result`:
`UPDATE tasks SET result_json = ?, provider = ? WHERE task_id = ?`. -/
def TaskQueue.save_task_result (q : TaskQueue) (task_id : Nat)
    (result_json : String) (provider : Option String := none) : TaskQueue :=
  { q with
    tasks := updateWhere q.tasks task_id
      (fun r => { r with result_json := some result_json, provider := provider }) }

/-- `TaskQueue.cancel_task`: false when the task is unknown or not in
(PENDING, RUNNING); otherwise update the status to CANCELLED and return
true. -/
def TaskQueue.cancel_task (q : TaskQueue) (task_id : Nat) (now : Nat := 0) :
    TaskQueue × Bool :=
  match q.get_task task_id with
  | none => (q, false)
  | some t =>
    if t.status = TaskStatus.pending ∨ t.status = TaskStatus.running then
      (q.update_task_status task_id .cancelled none none now, true)
    else
      (q, false)

/-! ### Tool behaviour and catalog (core/base.py BaseTool, as consumed by
executor.py and task_queue.py) -/

/-- Observable outcome of constructing a tool, validating an input against its
input model and running `execute` on it: either a success payload together
with the optional `provider` attribute of the result object, or a raised
exception, recorded as its kind (`type(e).__name__`) and message
(`str(e)`). -/
inductive ExecOutcome
  | ok (payload : String) (provider : Option String)
  | err (kind msg : String)

/-- A tool class, modelled by its behaviour on a serialized input. -/
def ToolBehavior : Type := String → ExecOutcome

/-- The tool-name to tool-class dictionary returned by
`get_tools(settings.get_enabled_domains())`. -/
def Catalog : Type := List (String × ToolBehavior)

/-- Python `name in tools` / `tools[name]` on a catalog dictionary. -/
def catalogLookup (tools : Catalog) (name : String) : Option ToolBehavior :=
  (tools.find? (fun p => p.1 == name)).map Prod.snd

/-! ### Background worker (task_queue.execute_task_in_background)

The worker is a straight-line procedure performing a sequence of atomic
store transactions.  To reason about what other processes can observe between
transactions (and about interleavings with `cancel_task`), it is embedded as
a small-step machine whose steps each perform at most one store write, in the
order of the source:

1. read the task row (exit when absent); discovery is triggered;
2. `update_task_status(RUNNING, progress=10)`;
3. look up the tool in the enabled-domain catalog; when absent, raise
   `ValueError` caught below as `update_task_status(FAILED, error=...)` and
   exit, else read the stored input and `update_task_status(RUNNING, 30)`;
4. validate and invoke the tool; on exception
   `update_task_status(FAILED, error=...)` and exit, else
   `update_task_status(RUNNING, 90)`;
5. `save_task_result(result, provider)`;
6. `update_task_status(COMPLETED, progress=100)`.

The row read in step 1 is carried in the worker state; its `tool_name` and
`input_json` fields are used later exactly as the source uses the step-1 copy
(`task.tool_name`) and the separately re-read `input_json` column, which no
operation ever updates after INSERT. -/

/-- Program counter of the worker between atomic store transactions. -/
inductive WorkerPhase
  | ready
  | claim (t : TaskRecord)
  | lookup (t : TaskRecord)
  | invoke (t : TaskRecord) (beh : ToolBehavior)
  | persist (payload : String) (provider : Option String)
  | finish

/-- A running worker process: the task id it was spawned for, the catalog it
resolved via the registry, and its program counter. -/
structure Worker where
  task_id : Nat
  tools : Catalog
  phase : WorkerPhase

/-- The exception message raised for an unregistered tool, after the
`f"{type(e).__name__}: {str(e)}"` formatting of the worker's handler. -/
def toolNotFoundError (tool_name : String) : String :=
  "ValueError: Tool " ++ tool_name ++ " not found"

/-- One atomic step of `execute_task_in_background`: returns the store after
the step and the worker continuation (`none` when the worker exits). -/
def workerStep (q : TaskQueue) (w : Worker) (now : Nat) :
    TaskQueue × Option Worker :=
  match w.phase with
  | .ready =>
    match q.get_task w.task_id with
    | none => (q, none)
    | some t => (q, some { w with phase := .claim t })
  | .claim t =>
    (q.update_task_status w.task_id .running (some 10) none now,
      some { w with phase := .lookup t })
  | .lookup t =>
    match catalogLookup w.tools t.tool_name with
    | none =>
      (q.update_task_status w.task_id .failed none
        (some (toolNotFoundError t.tool_name)) now, none)
    | some beh =>
      (q.update_task_status w.task_id .running (some 30) none now,
        some { w with phase := .invoke t beh })
  | .invoke t beh =>
    match beh t.input_json with
    | .err kind msg =>
      (q.update_task_status w.task_id .failed none
        (some (kind ++ ": " ++ msg)) now, none)
    | .ok payload provider =>
      (q.update_task_status w.task_id .running (some 90) none now,
        some { w with phase := .persist payload provider })
  | .persist payload provider =>
    (q.save_task_result w.task_id payload provider,
      some { w with phase := .finish })
  | .finish =>
    (q.update_task_status w.task_id .completed (some 100) none now, none)

/-- Run a worker to completion (fuel-bounded; the phase order is strictly
decreasing, so fuel 6 always suffices from `ready`). -/
def runWorker (q : TaskQueue) (w : Worker) (now : Nat) : Nat → TaskQueue
  | 0 => q
  | fuel + 1 =>
    match workerStep q w now with
    | (q1, none) => q1
    | (q1, some w1) => runWorker q1 w1 now fuel

/-- The store states observable after each successive worker transaction. -/
def workerStates (q : TaskQueue) (w : Worker) (now : Nat) :
    Nat → List TaskQueue
  | 0 => []
  | fuel + 1 =>
    match workerStep q w now with
    | (q1, none) => [q1]
    | (q1, some w1) => q1 :: workerStates q1 w1 now fuel

/-- `execute_task_in_background(task_id)` run as one whole call: the final
store after the worker exits. -/
def execute_task_in_background (q : TaskQueue) (task_id : Nat)
    (tools : Catalog) (now : Nat) : TaskQueue :=
  runWorker q { task_id := task_id, tools := tools, phase := .ready } now 6

/-- The observable store states of one whole worker call, in order. -/
def workerQueueStates (q : TaskQueue) (task_id : Nat) (tools : Catalog)
    (now : Nat) : List TaskQueue :=
  workerStates q { task_id := task_id, tools := tools, phase := .ready } now 6

/-! ### Whole-system semantics: queue operations interleaved with workers

The store is the only shared mutable resource; each transaction is atomic,
so the reachable behaviours of the system are the interleavings of the
atomic effects of `create_task`, `cancel_task`, `start_background_task`
(spawning a worker) and the individual worker transactions
(`update_task_status` and `save_task_result` are invoked only by
`cancel_task` and by workers). -/

/-- One atomic system event. -/
inductive SysOp
  | create (tool_name query input_data : String) (output_file : Option String)
      (estimated_duration : Option Int) (now : Nat)
  | cancel (task_id : Nat) (now : Nat)
  | spawn (task_id : Nat) (tools : Catalog)
  | work (k : Nat) (now : Nat)

/-- A system state: the durable store plus the currently active workers. -/
structure Sys where
  q : TaskQueue
  workers : List Worker

/-- Apply one atomic event.  `work k` advances the k-th active worker by one
transaction (a no-op when there is no such worker); a worker that exits is
removed. -/
def Sys.apply (s : Sys) : SysOp → Sys
  | .create tool_name query input_data output_file est now =>
    { s with q := (s.q.create_task tool_name query input_data output_file est now).1 }
  | .cancel task_id now =>
    { s with q := (s.q.cancel_task task_id now).1 }
  | .spawn task_id tools =>
    { s with workers := s.workers ++ [⟨task_id, tools, .ready⟩] }
  | .work k now =>
    match s.workers[k]? with
    | none => s
    | some w =>
      match workerStep s.q w now with
      | (q1, none) => { q := q1, workers := s.workers.eraseIdx k }
      | (q1, some w1) => { q := q1, workers := s.workers.set k w1 }

/-- Run a sequence of atomic events. -/
def Sys.run (s : Sys) (ops : List SysOp) : Sys :=
  ops.foldl Sys.apply s

/-- The system state with an empty store and no workers. -/
def Sys.init : Sys := ⟨⟨[], 0⟩, []⟩

/-- Well-formedness of the store: every row key was produced by the fresh-id
oracle, i.e. is below the counter. -/
def QueueWF (q : TaskQueue) : Prop :=
  ∀ p ∈ q.tasks, p.1 < q.nextId

instance (q : TaskQueue) : Decidable (QueueWF q) := by
  unfold QueueWF
  infer_instance

/-! ### Executor (core/executor.py) -/

/-- `ExecutionResult` of one tool execution.  Wall-clock timing is not
modelled (`execution_time_ms` stays 0). -/
structure ExecutionResult where
  tool_name : String
  success : Bool
  result : Option String := none
  error : Option String := none
  execution_time_ms : Nat := 0
deriving DecidableEq, Repr

/-- `BatchResult` of executing multiple tools. -/
structure BatchResult where
  results : List ExecutionResult := []
  total_time_ms : Nat := 0
deriving DecidableEq, Repr

/-- The not-found message of `Executor.execute`. -/
def executorNotFoundError (tool_name : String) : String :=
  "Tool " ++ "'" ++ tool_name ++ "'" ++ " not found or not enabled"

namespace Executor

/-- `Executor.execute(tool_name, input_data)` over the lazily resolved
catalog `tools`: a not-found failure result when the tool is absent;
otherwise construct, validate and invoke, catching any exception into the
`error` field (`error=str(e)`, the exception message).  The function is
total: no exception propagates to the caller. -/
def execute (tools : Catalog) (tool_name : String) (input_data : String) :
    ExecutionResult :=
  match catalogLookup tools tool_name with
  | none =>
    { tool_name := tool_name
      success := false
      error := some (executorNotFoundError tool_name) }
  | some beh =>
    match beh input_data with
    | .ok payload _ =>
      { tool_name := tool_name, success := true, result := some payload }
    | .err _ msg =>
      { tool_name := tool_name, success := false, error := some msg }

/-- `Executor.execute_batch(requests, max_concurrent)`.  The source gathers
one `execute` coroutine per request under a semaphore and collects their
values with `asyncio.gather`, whose result list is ordered by the input
awaitables, not by completion; each `execute` call touches no shared mutable
state, so the denotation is the input-ordered list of the per-request
results, independent of the concurrency bound. -/
def execute_batch (tools : Catalog) (requests : List (String × String)) :
    BatchResult :=
  { results := requests.map (fun r => execute tools r.1 r.2)
    total_time_ms := 0 }

end Executor

/-! ### Registry (core/registry.py)

`_TOOL_REGISTRY` is a dict from domain to a dict from tool name to tool
class; dicts are modelled as insertion-ordered association lists with
Python dict assignment semantics (update in place when the key exists,
append otherwise).  Importing a domain package triggers the package's
`@register_tool(domain=...)` decorators; a domain module of the environment
is therefore modelled as its name together with `none` when importing it
raises `ImportError` (the failure is logged and the domain skipped) or the
ordered list of registrations it performs. -/

/-- Python dict assignment `m[k] = v` on an insertion-ordered dict. -/
def dictInsert {α : Type} (m : List (String × α)) (k : String) (v : α) :
    List (String × α) :=
  if m.any (fun p => p.1 == k) then
    m.map (fun p => if p.1 == k then (k, v) else p)
  else
    m ++ [(k, v)]

/-- Python dict lookup `m.get(k)`. -/
def dictGet {α : Type} (m : List (String × α)) (k : String) : Option α :=
  (m.find? (fun p => p.1 == k)).map Prod.snd

/-- Python `tools.update(m)`: fold the assignments of `m` into `tools`. -/
def dictMerge {α : Type} (tools m : List (String × α)) : List (String × α) :=
  m.foldl (fun acc p => dictInsert acc p.1 p.2) tools

/-- Python `k in m`. -/
def hasKey {α : Type} (m : List (String × α)) (k : String) : Bool :=
  m.any (fun p => p.1 == k)

/-- The global registry state: `_TOOL_REGISTRY` plus the `_discovered`
flag.  (`_PROVIDER_REGISTRY` plays no part in the claims.) -/
structure Registry where
  tool_registry : List (String × List (String × ToolBehavior))
  discovered : Bool

/-- One `@register_tool(domain=...)` registration triggered at import time:
the domain it registers under, the tool name, and the tool class. -/
structure Registration where
  domain : String
  tool_name : String
  cls : ToolBehavior

/-- A domain package of the environment: its module name, and `none` when
importing it raises `ImportError`, else its ordered registrations. -/
structure DomainModule where
  module_name : String
  regs : Option (List Registration)

/-- `register_tool(domain)` applied to a class: create the domain dict when
absent, then assign the tool under its name. -/
def register_tool (reg : List (String × List (String × ToolBehavior)))
    (domain tool_name : String) (cls : ToolBehavior) :
    List (String × List (String × ToolBehavior)) :=
  let reg1 := if hasKey reg domain then reg else dictInsert reg domain []
  let domMap := (dictGet reg1 domain).getD []
  dictInsert reg1 domain (dictInsert domMap tool_name cls)

/-- `discover_domains()`: a no-op once `_discovered` is set; otherwise import
every domain package (skipping the ones whose import fails, which only logs
a warning), letting each registration mutate the catalog, then set the
flag. -/
def discover_domains (modules : List DomainModule) (s : Registry) : Registry :=
  if s.discovered then s
  else
    { tool_registry :=
        modules.foldl
          (fun reg m =>
            match m.regs with
            | none => reg
            | some rs =>
              rs.foldl (fun reg2 r => register_tool reg2 r.domain r.tool_name r.cls) reg)
          s.tool_registry
      discovered := true }

/-- The loop body of `get_tools`: `if domain in _TOOL_REGISTRY:
tools.update(_TOOL_REGISTRY[domain])`. -/
def mergeDomain (reg : List (String × Catalog)) (tools : Catalog)
    (d : String) : Catalog :=
  match dictGet reg d with
  | some m => dictMerge tools m
  | none => tools

/-- `get_tools(domains)`: trigger discovery, default the domain filter to all
catalog domains, and merge the per-domain dicts of the known requested
domains (an unknown domain contributes nothing).  Returns the post-discovery
registry together with the merged catalog. -/
def get_tools (modules : List DomainModule) (s : Registry)
    (domains : Option (List String)) : Registry × Catalog :=
  let s1 := discover_domains modules s
  let ds := match domains with
    | none => s1.tool_registry.map Prod.fst
    | some l => l
  (s1, ds.foldl (mergeDomain s1.tool_registry) [])

/-! ### Basic lemmas about the store operations -/

theorem applyStatusUpdate_status (r : TaskRecord) (st : TaskStatus)
    (p : Option Int) (e : Option String) (now : Nat) :
    (applyStatusUpdate r st p e now).status = st := by
  unfold applyStatusUpdate
  cases p <;> cases e <;> dsimp only <;> split <;> split <;> rfl

theorem applyStatusUpdate_result_json (r : TaskRecord) (st : TaskStatus)
    (p : Option Int) (e : Option String) (now : Nat) :
    (applyStatusUpdate r st p e now).result_json = r.result_json := by
  unfold applyStatusUpdate
  cases p <;> cases e <;> dsimp only <;> split <;> split <;> rfl

theorem applyStatusUpdate_started_at_of_progress (r : TaskRecord)
    (st : TaskStatus) (p : Int) (e : Option String) (now : Nat) :
    (applyStatusUpdate r st (some p) e now).started_at = r.started_at := by
  unfold applyStatusUpdate
  cases e <;> dsimp only <;> split <;> split <;> simp_all

theorem applyStatusUpdate_completed_at_of_terminal (r : TaskRecord)
    (st : TaskStatus) (p : Option Int) (e : Option String) (now : Nat)
    (h : st.isTerminal = true) :
    (applyStatusUpdate r st p e now).completed_at = some now := by
  unfold applyStatusUpdate
  cases p <;> cases e <;> dsimp only <;> split <;> simp [h]

theorem updateWhere_find_self (tasks : List (Nat × TaskRecord)) (task_id : Nat)
    (f : TaskRecord → TaskRecord) :
    (updateWhere tasks task_id f).find? (fun p => p.1 == task_id) =
      (tasks.find? (fun p => p.1 == task_id)).map (fun p => (p.1, f p.2)) := by
  induction tasks with
  | nil => rfl
  | cons a l ih =>
    by_cases h : a.1 = task_id
    · simp [updateWhere, List.find?_cons, h]
    · simpa [updateWhere, List.find?_cons, h] using ih

theorem updateWhere_find_other (tasks : List (Nat × TaskRecord))
    (task_id other : Nat) (f : TaskRecord → TaskRecord) (hne : other ≠ task_id) :
    (updateWhere tasks task_id f).find? (fun p => p.1 == other) =
      tasks.find? (fun p => p.1 == other) := by
  induction tasks with
  | nil => rfl
  | cons a l ih =>
    by_cases h : a.1 = task_id
    · have : ¬ a.1 = other := by omega
      simp [updateWhere, List.find?_cons, h, this, Ne.symm hne] at *
      exact ih
    · by_cases h2 : a.1 = other
      · simp [updateWhere, List.find?_cons, h, h2, hne]
      · simp [updateWhere, List.find?_cons, h, h2] at *
        exact ih

theorem updateWhere_of_absent (tasks : List (Nat × TaskRecord)) (task_id : Nat)
    (f : TaskRecord → TaskRecord)
    (h : tasks.find? (fun p => p.1 == task_id) = none) :
    updateWhere tasks task_id f = tasks := by
  have hall := List.find?_eq_none.mp h
  unfold updateWhere
  conv_rhs => rw [← List.map_id tasks]
  refine List.map_congr_left (fun p hp => ?_)
  have : ¬ p.1 == task_id := hall p hp
  simp at this
  simp [this]

theorem get_task_update_self (q : TaskQueue) (task_id : Nat) (st : TaskStatus)
    (p : Option Int) (e : Option String) (now : Nat) :
    (q.update_task_status task_id st p e now).get_task task_id =
      (q.get_task task_id).map (fun r => applyStatusUpdate r st p e now) := by
  simp [TaskQueue.update_task_status, TaskQueue.get_task, updateWhere_find_self,
    Option.map_map]
  rfl

theorem get_task_update_other (q : TaskQueue) (task_id other : Nat)
    (st : TaskStatus) (p : Option Int) (e : Option String) (now : Nat)
    (hne : other ≠ task_id) :
    (q.update_task_status task_id st p e now).get_task other =
      q.get_task other := by
  simp [TaskQueue.update_task_status, TaskQueue.get_task,
    updateWhere_find_other _ _ _ _ hne]

theorem get_task_save_self (q : TaskQueue) (task_id : Nat)
    (payload : String) (provider : Option String) :
    (q.save_task_result task_id payload provider).get_task task_id =
      (q.get_task task_id).map
        (fun r => { r with result_json := some payload, provider := provider }) := by
  simp [TaskQueue.save_task_result, TaskQueue.get_task, updateWhere_find_self,
    Option.map_map]
  rfl

theorem get_task_save_other (q : TaskQueue) (task_id other : Nat)
    (payload : String) (provider : Option String) (hne : other ≠ task_id) :
    (q.save_task_result task_id payload provider).get_task other =
      q.get_task other := by
  simp [TaskQueue.save_task_result, TaskQueue.get_task,
    updateWhere_find_other _ _ _ _ hne]

theorem applyStatusUpdate_error_some (r : TaskRecord) (st : TaskStatus)
    (p : Option Int) (e : String) (now : Nat) :
    (applyStatusUpdate r st p (some e) now).error = some e := by
  unfold applyStatusUpdate
  cases p <;> rfl

theorem applyStatusUpdate_progress_some (r : TaskRecord) (st : TaskStatus)
    (p : Int) (e : Option String) (now : Nat) :
    (applyStatusUpdate r st (some p) e now).progress = p := by
  unfold applyStatusUpdate
  cases e <;> rfl

/-! ### Claim theorems -/

/-- C10: `update_task_status` and `save_task_result` on a task id that is not
present in the store return normally (they are total functions) and leave the
store — hence every stored task record — unchanged: the UPDATE matches no
row, so both are silent no-ops. -/
theorem unknown_id_update_noop (q : TaskQueue) (task_id : Nat)
    (st : TaskStatus) (p : Option Int) (e : Option String) (now : Nat)
    (payload : String) (provider : Option String)
    (h : q.get_task task_id = none) :
    q.update_task_status task_id st p e now = q ∧
    q.save_task_result task_id payload provider = q := by
  have hfind : q.tasks.find? (fun x => x.1 == task_id) = none := by
    simpa [TaskQueue.get_task] using h
  constructor
  · simp [TaskQueue.update_task_status, updateWhere_of_absent _ _ _ hfind]
  · simp [TaskQueue.save_task_result, updateWhere_of_absent _ _ _ hfind]

theorem unknown_id_update_noop_witness :
    (TaskQueue.mk [] 0).get_task 7 = none ∧
    ((TaskQueue.mk [] 0).update_task_status 7 .running none none 3 =
        TaskQueue.mk [] 0 ∧
      (TaskQueue.mk [] 0).save_task_result 7 "r" none = TaskQueue.mk [] 0) :=
  ⟨rfl, unknown_id_update_noop (TaskQueue.mk [] 0) 7 .running none none 3 "r"
    none rfl⟩

/-- C6: `cancel_task` returns false and leaves the store untouched when the
task is unknown or its status is COMPLETED, FAILED or CANCELLED; when the
status is PENDING or RUNNING (in particular for a PENDING task never touched
by a worker) it returns true and the task is afterwards CANCELLED with
`completed_at` stamped. -/
theorem cancel_task_spec (q : TaskQueue) (task_id : Nat) (now : Nat) :
    (q.get_task task_id = none → q.cancel_task task_id now = (q, false)) ∧
    (∀ t, q.get_task task_id = some t →
      (t.status = .completed ∨ t.status = .failed ∨ t.status = .cancelled) →
      q.cancel_task task_id now = (q, false)) ∧
    (∀ t, q.get_task task_id = some t →
      (t.status = .pending ∨ t.status = .running) →
      (q.cancel_task task_id now).2 = true ∧
      ∃ t1, (q.cancel_task task_id now).1.get_task task_id = some t1 ∧
        t1.status = .cancelled ∧ t1.completed_at = some now) := by
  refine ⟨?_, ?_, ?_⟩
  · intro h
    simp [TaskQueue.cancel_task, h]
  · intro t ht hterm
    have hnot : ¬(t.status = TaskStatus.pending ∨ t.status = TaskStatus.running) := by
      rcases hterm with h | h | h <;> simp [h]
    simp only [TaskQueue.cancel_task, ht]
    rw [if_neg hnot]
  · intro t ht hact
    simp only [TaskQueue.cancel_task, ht]
    rw [if_pos hact]
    refine ⟨rfl, ?_⟩
    rw [get_task_update_self, ht]
    exact ⟨_, rfl, applyStatusUpdate_status _ _ _ _ _,
      applyStatusUpdate_completed_at_of_terminal _ _ _ _ _ rfl⟩

/-- A concrete PENDING task row, used by witnesses and counterexamples. -/
def sampleRow : TaskRecord :=
  { tool_name := "t"
    query := "x"
    status := .pending
    created_at := 0
    input_json := "{}" }

/-- A concrete one-task store, used by witnesses and counterexamples. -/
def sampleQueue : TaskQueue := TaskQueue.mk [(0, sampleRow)] 1

theorem cancel_task_spec_witness :
    sampleQueue.get_task 0 = some sampleRow ∧
    (sampleQueue.cancel_task 0 5).2 = true ∧
    ∃ t1, (sampleQueue.cancel_task 0 5).1.get_task 0 = some t1 ∧
      t1.status = .cancelled ∧ t1.completed_at = some 5 :=
  ⟨rfl,
    (cancel_task_spec sampleQueue 0 5).2.2 sampleRow rfl (Or.inl rfl)⟩

/-- C1: `Executor.execute` always returns an `ExecutionResult` (it is a total
function, so no exception reaches the caller; any exception raised while
constructing, validating or invoking the tool appears as an `ExecOutcome.err`
of the tool behaviour).  A tool name absent from the enabled-domain catalog
yields `success=false` with the not-found message; an exception during
validation or invocation yields `success=false` with its message in `error`;
a successful invocation yields `success=true` with the payload. -/
theorem executor_execute_spec (tools : Catalog) (tool_name input_data : String) :
    (catalogLookup tools tool_name = none →
      Executor.execute tools tool_name input_data =
        { tool_name := tool_name, success := false,
          error := some (executorNotFoundError tool_name) }) ∧
    (∀ beh kind msg, catalogLookup tools tool_name = some beh →
      beh input_data = .err kind msg →
      (Executor.execute tools tool_name input_data).success = false ∧
      (Executor.execute tools tool_name input_data).error = some msg) ∧
    (∀ beh payload provider, catalogLookup tools tool_name = some beh →
      beh input_data = .ok payload provider →
      (Executor.execute tools tool_name input_data).success = true ∧
      (Executor.execute tools tool_name input_data).result = some payload) := by
  refine ⟨?_, ?_, ?_⟩
  · intro h
    simp [Executor.execute, h]
  · intro beh kind msg hbeh herr
    simp [Executor.execute, hbeh, herr]
  · intro beh payload provider hbeh hok
    simp [Executor.execute, hbeh, hok]

theorem executor_execute_spec_witness :
    catalogLookup [] "ghost" = none ∧
    Executor.execute [] "ghost" "{}" =
      { tool_name := "ghost", success := false,
        error := some (executorNotFoundError "ghost") } :=
  ⟨rfl, (executor_execute_spec [] "ghost" "{}").1 rfl⟩

/-- C5: `Executor.execute_batch` on N requests returns exactly N results, the
i-th result being the execution of the i-th request (input order, not
completion order, and independent of the concurrency bound, which does not
appear in the denotation); the i-th result depends only on the i-th request,
so one request failing cannot affect another request's result. -/
theorem execute_batch_spec (tools : Catalog)
    (requests : List (String × String)) :
    (Executor.execute_batch tools requests).results.length = requests.length ∧
    (∀ i (hi : i < requests.length),
      (Executor.execute_batch tools requests).results[i]? =
        some (Executor.execute tools (requests.get ⟨i, hi⟩).1
          (requests.get ⟨i, hi⟩).2)) ∧
    (∀ others : List (String × String), ∀ i : Nat,
      requests[i]? = others[i]? →
      (Executor.execute_batch tools requests).results[i]? =
        (Executor.execute_batch tools others).results[i]?) := by
  refine ⟨by simp [Executor.execute_batch], ?_, ?_⟩
  · intro i hi
    simp [Executor.execute_batch, List.getElem?_map,
      List.getElem?_eq_getElem hi]
  · intro others i hsame
    simp [Executor.execute_batch, List.getElem?_map, hsame]

theorem execute_batch_spec_witness :
    (Executor.execute_batch [] [("a", "x"), ("b", "y")]).results.length = 2 ∧
    (Executor.execute_batch [] [("a", "x"), ("b", "y")]).results[1]? =
      some (Executor.execute [] "b" "y") :=
  ⟨(execute_batch_spec [] [("a", "x"), ("b", "y")]).1,
    (execute_batch_spec [] [("a", "x"), ("b", "y")]).2.1 1 (by decide)⟩

theorem get_task_nextId_none (q : TaskQueue) (hwf : QueueWF q) :
    q.get_task q.nextId = none := by
  simp only [TaskQueue.get_task, Option.map_eq_none']
  rw [List.find?_eq_none]
  intro p hp
  have := hwf p hp
  simp only [beq_iff_eq]
  omega

/-- C7: `create_task` returns an id fresh with respect to every id in the
store (the uuid source is modelled by the fresh-name oracle `nextId`, whose
well-formedness `QueueWF` all operations preserve); immediately afterwards
`get_task` on that id shows status PENDING, progress 0, `created_at = now`
and no `started_at`, `completed_at`, `error` or `result_json`; every other
task is untouched and no worker is started (the `workers` component of the
system is unchanged by the create event). -/
theorem create_task_spec (q : TaskQueue) (tool_name query input_data : String)
    (output_file : Option String) (est : Option Int) (now : Nat)
    (hwf : QueueWF q) :
    q.get_task (q.create_task tool_name query input_data output_file est now).2 =
      none ∧
    (∃ t, (q.create_task tool_name query input_data output_file est
        now).1.get_task
        (q.create_task tool_name query input_data output_file est now).2 =
          some t ∧
      t.status = .pending ∧ t.progress = 0 ∧ t.created_at = now ∧
      t.started_at = none ∧ t.completed_at = none ∧ t.error = none ∧
      t.result_json = none) ∧
    (∀ other, other ≠
        (q.create_task tool_name query input_data output_file est now).2 →
      (q.create_task tool_name query input_data output_file est
        now).1.get_task other = q.get_task other) ∧
    (∀ s : Sys,
      (s.apply (SysOp.create tool_name query input_data output_file est
        now)).workers = s.workers) := by
  refine ⟨get_task_nextId_none q hwf, ?_, ?_, fun s => rfl⟩
  · refine ⟨{ tool_name := tool_name, query := query, status := .pending,
              created_at := now, output_file := output_file,
              estimated_duration_seconds := est, input_json := input_data },
      ?_, rfl, rfl, rfl, rfl, rfl, rfl, rfl⟩
    simp [TaskQueue.create_task, TaskQueue.get_task, List.find?_cons]
  · intro other hne
    have : ¬(q.nextId == other) = true := by
      simp only [beq_iff_eq]
      exact fun h => hne (h ▸ rfl)
    simp [TaskQueue.create_task, TaskQueue.get_task, List.find?_cons, this]

theorem create_task_spec_witness :
    QueueWF sampleQueue ∧
    sampleQueue.get_task
      (sampleQueue.create_task "n" "q" "{}" none none 9).2 = none ∧
    (∃ t, (sampleQueue.create_task "n" "q" "{}" none none 9).1.get_task
        (sampleQueue.create_task "n" "q" "{}" none none 9).2 = some t ∧
      t.status = .pending ∧ t.progress = 0 ∧ t.created_at = 9 ∧
      t.started_at = none ∧ t.completed_at = none ∧ t.error = none ∧
      t.result_json = none) :=
  ⟨by decide,
    (create_task_spec sampleQueue "n" "q" "{}" none none 9 (by decide)).1,
    (create_task_spec sampleQueue "n" "q" "{}" none none 9 (by decide)).2.1⟩

/-- C2: the claim fails on the code.  `update_task_status` stamps
`started_at` only when the new status is RUNNING *and no progress value was
supplied*, while the background worker always supplies one
(`progress=10/30/90`); hence a task created PENDING and driven to COMPLETED
by the worker ends with `started_at` still unset, contradicting the claim
that `started_at` is stamped on the first transition to RUNNING regardless
of a progress argument.  This theorem evaluates the code at the failing
input: a fresh task run by the worker with a succeeding tool ends COMPLETED
(with `completed_at` stamped and progress 100) yet `started_at = none`, and
already the worker's first RUNNING update leaves `started_at = none`. -/
theorem worker_completed_task_has_no_started_at :
    (((((TaskQueue.mk [] 0).create_task "echo" "hi" "{}" none none
        0).1.update_task_status 0 .running (some 10) none 1).get_task 0).map
      (fun r => (r.status, r.started_at)) = some (.running, none)) ∧
    (((execute_task_in_background
        ((TaskQueue.mk [] 0).create_task "echo" "hi" "{}" none none 0).1 0
        [("echo", fun _ => ExecOutcome.ok "res" none)] 1).get_task 0).map
      (fun r => (r.status, r.started_at, r.completed_at, r.progress)) =
      some (.completed, none, some 1, 100)) := by
  exact ⟨rfl, rfl⟩

/-- C8 counterexample: the claim that the worker moves an unknown-tool task
directly from PENDING to FAILED with no intermediate observable state is
false.  Running the worker on a freshly created task whose tool is absent
from the catalog produces the observable status sequence
PENDING, RUNNING, FAILED: the state after the worker's first transaction
(`update_task_status(RUNNING, progress=10)`, which precedes the tool
lookup) shows the task RUNNING. -/
theorem worker_unknown_tool_intermediate_running :
    (workerQueueStates
        ((TaskQueue.mk [] 0).create_task "ghost" "q" "{}" none none 0).1 0 []
        1).map
      (fun s => (s.get_task 0).map (fun r => r.status)) =
      [some .pending, some .running, some .failed] := by
  rfl

/-- C8 amended: when the worker runs a task whose `tool_name` is not in the
enabled-domain catalog, it transitions the task PENDING to RUNNING
(progress 10) and then RUNNING to FAILED — one intermediate observable
RUNNING state, not a direct transition — recording the error
"ValueError: Tool <tool_name> not found", which has the
"<errorKind>: <message>" shape and contains the tool name; the raised
`ValueError` is caught inside the worker (the run is a total function ending
in the FAILED write, so no exception escapes). -/
theorem worker_unknown_tool_spec (q : TaskQueue) (task_id : Nat)
    (tools : Catalog) (now : Nat) (t : TaskRecord)
    (ht : q.get_task task_id = some t)
    (habs : catalogLookup tools t.tool_name = none) :
    ((workerQueueStates q task_id tools now).map
        (fun s => (s.get_task task_id).map (fun r => r.status)) =
      [some t.status, some .running, some .failed]) ∧
    (∃ tf, (execute_task_in_background q task_id tools now).get_task task_id =
        some tf ∧ tf.status = .failed ∧
      tf.error = some (toolNotFoundError t.tool_name)) := by
  have hq1 : (q.update_task_status task_id .running (some 10) none
      now).get_task task_id =
      some (applyStatusUpdate t .running (some 10) none now) := by
    rw [get_task_update_self, ht]
    rfl
  have hq2 : ((q.update_task_status task_id .running (some 10) none
      now).update_task_status task_id .failed none
      (some (toolNotFoundError t.tool_name)) now).get_task task_id =
      some (applyStatusUpdate (applyStatusUpdate t .running (some 10) none now)
        .failed none (some (toolNotFoundError t.tool_name)) now) := by
    rw [get_task_update_self, hq1]
    rfl
  constructor
  · simp only [workerQueueStates, workerStates, workerStep, ht, habs]
    simp [ht, hq1, hq2, applyStatusUpdate_status]
  · refine ⟨applyStatusUpdate (applyStatusUpdate t .running (some 10) none now)
        .failed none (some (toolNotFoundError t.tool_name)) now, ?_,
      applyStatusUpdate_status _ _ _ _ _, applyStatusUpdate_error_some _ _ _ _ _⟩
    simp only [execute_task_in_background, runWorker, workerStep, ht, habs]
    exact hq2

theorem worker_unknown_tool_spec_witness :
    sampleQueue.get_task 0 = some sampleRow ∧
    catalogLookup [] sampleRow.tool_name = none ∧
    ∃ tf, (execute_task_in_background sampleQueue 0 [] 4).get_task 0 =
        some tf ∧ tf.status = .failed ∧
      tf.error = some (toolNotFoundError sampleRow.tool_name) :=
  ⟨rfl, rfl, (worker_unknown_tool_spec sampleQueue 0 [] 4 sampleRow rfl rfl).2⟩

/-- C4 counterexample: the claim that the stored result is non-empty only
when status is COMPLETED fails at the intermediate worker state between
`save_task_result` and the final COMPLETED update: running the worker on a
fresh task with a succeeding tool, the fifth observable store state has the
result already saved while the status is still RUNNING. -/
theorem result_saved_while_running :
    ((workerQueueStates
        ((TaskQueue.mk [] 0).create_task "echo" "hi" "{}" none none 0).1 0
        [("echo", fun _ => ExecOutcome.ok "res" none)] 1)[4]?).map
      (fun s => (s.get_task 0).map (fun r => (r.status, r.result_json))) =
      some (some (.running, some "res")) := by
  rfl

/-- C4 amended: during a worker execution of a task whose stored result is
empty, at every observable store state the task's result is non-empty only
when its status is COMPLETED — except for the single state between the
worker's `save_task_result` and its final COMPLETED update, where the result
is already stored while the status is still RUNNING (progress 90). -/
theorem worker_result_only_when_completed (q : TaskQueue) (task_id : Nat)
    (tools : Catalog) (now : Nat) (t : TaskRecord)
    (ht : q.get_task task_id = some t) (hres : t.result_json = none) :
    ∀ s ∈ workerQueueStates q task_id tools now, ∀ r,
      s.get_task task_id = some r → r.result_json ≠ none →
      r.status = .completed ∨ (r.status = .running ∧ r.progress = 90) := by
  intro s hs r hr hne
  rcases hlook : catalogLookup tools t.tool_name with _ | beh
  · simp only [workerQueueStates, workerStates, workerStep, ht, hlook] at hs
    simp only [List.mem_cons, List.not_mem_nil, or_false] at hs
    rcases hs with hs | hs | hs <;> subst hs
    · rw [ht] at hr
      cases hr
      exact absurd hres hne
    · rw [get_task_update_self, ht] at hr
      cases hr
      exact absurd (by rw [applyStatusUpdate_result_json]; exact hres) hne
    · rw [get_task_update_self, get_task_update_self, ht] at hr
      cases hr
      exact absurd
        (by rw [applyStatusUpdate_result_json, applyStatusUpdate_result_json]
            exact hres) hne
  · rcases hout : beh t.input_json with ⟨payload, prov⟩ | ⟨kind, msg⟩
    · simp only [workerQueueStates, workerStates, workerStep, ht, hlook,
        hout] at hs
      simp only [List.mem_cons, List.not_mem_nil, or_false] at hs
      rcases hs with hs | hs | hs | hs | hs | hs <;> subst hs
      · rw [ht] at hr
        cases hr
        exact absurd hres hne
      · rw [get_task_update_self, ht] at hr
        cases hr
        exact absurd (by rw [applyStatusUpdate_result_json]; exact hres) hne
      · rw [get_task_update_self, get_task_update_self, ht] at hr
        cases hr
        exact absurd
          (by rw [applyStatusUpdate_result_json, applyStatusUpdate_result_json]
              exact hres) hne
      · rw [get_task_update_self, get_task_update_self, get_task_update_self,
          ht] at hr
        cases hr
        exact absurd
          (by rw [applyStatusUpdate_result_json, applyStatusUpdate_result_json,
                applyStatusUpdate_result_json]
              exact hres) hne
      · rw [get_task_save_self, get_task_update_self, get_task_update_self,
          get_task_update_self, ht] at hr
        cases hr
        exact Or.inr ⟨applyStatusUpdate_status _ _ _ _ _,
          applyStatusUpdate_progress_some _ _ _ _ _⟩
      · rw [get_task_update_self, get_task_save_self, get_task_update_self,
          get_task_update_self, get_task_update_self, ht] at hr
        cases hr
        exact Or.inl (applyStatusUpdate_status _ _ _ _ _)
    · simp only [workerQueueStates, workerStates, workerStep, ht, hlook,
        hout] at hs
      simp only [List.mem_cons, List.not_mem_nil, or_false] at hs
      rcases hs with hs | hs | hs | hs <;> subst hs
      · rw [ht] at hr
        cases hr
        exact absurd hres hne
      · rw [get_task_update_self, ht] at hr
        cases hr
        exact absurd (by rw [applyStatusUpdate_result_json]; exact hres) hne
      · rw [get_task_update_self, get_task_update_self, ht] at hr
        cases hr
        exact absurd
          (by rw [applyStatusUpdate_result_json, applyStatusUpdate_result_json]
              exact hres) hne
      · rw [get_task_update_self, get_task_update_self, get_task_update_self,
          ht] at hr
        cases hr
        exact absurd
          (by rw [applyStatusUpdate_result_json, applyStatusUpdate_result_json,
                applyStatusUpdate_result_json]
              exact hres) hne

theorem worker_result_only_when_completed_witness :
    sampleQueue.get_task 0 = some sampleRow ∧
    sampleRow.result_json = none ∧
    ∀ s ∈ workerQueueStates sampleQueue 0
        [("t", fun _ => ExecOutcome.ok "res" none)] 3, ∀ r,
      s.get_task 0 = some r → r.result_json ≠ none →
      r.status = .completed ∨ (r.status = .running ∧ r.progress = 90) :=
  ⟨rfl, rfl,
    worker_result_only_when_completed sampleQueue 0
      [("t", fun _ => ExecOutcome.ok "res" none)] 3 sampleRow rfl rfl⟩

theorem get_task_some_lt (q : TaskQueue) (task_id : Nat) (t : TaskRecord)
    (hwf : QueueWF q) (h : q.get_task task_id = some t) :
    task_id < q.nextId := by
  simp only [TaskQueue.get_task, Option.map_eq_some'] at h
  rcases h with ⟨p, hp, -⟩
  have hmem := List.mem_of_find?_eq_some hp
  have hkey := List.find?_some hp
  simp only [beq_iff_eq] at hkey
  have := hwf p hmem
  omega

theorem get_task_create_other (q : TaskQueue) (tool_name query input_data :
    String) (output_file : Option String) (est : Option Int) (now : Nat)
    (other : Nat) (hne : other ≠ q.nextId) :
    (q.create_task tool_name query input_data output_file est now).1.get_task
      other = q.get_task other := by
  have : ¬(q.nextId == other) = true := by
    simp only [beq_iff_eq]
    exact fun h => hne (h ▸ rfl)
  simp [TaskQueue.create_task, TaskQueue.get_task, List.find?_cons, this]

theorem wf_updateWhere (tasks : List (Nat × TaskRecord)) (n task_id : Nat)
    (f : TaskRecord → TaskRecord) (h : ∀ p ∈ tasks, p.1 < n) :
    ∀ p ∈ updateWhere tasks task_id f, p.1 < n := by
  intro p hp
  rcases List.mem_map.mp hp with ⟨p0, hp0, hep⟩
  have hk : p.1 = p0.1 := by
    rw [← hep]
    by_cases hc : p0.1 = task_id <;> simp [hc]
  rw [hk]
  exact h p0 hp0

theorem wf_update_task_status (q : TaskQueue) (task_id : Nat)
    (st : TaskStatus) (p : Option Int) (e : Option String) (now : Nat)
    (hwf : QueueWF q) :
    QueueWF (q.update_task_status task_id st p e now) := by
  intro pr hpr
  have hpr2 : pr ∈ updateWhere q.tasks task_id
      (fun r => applyStatusUpdate r st p e now) := hpr
  exact wf_updateWhere q.tasks q.nextId task_id _ hwf pr hpr2

theorem wf_save_task_result (q : TaskQueue) (task_id : Nat) (payload : String)
    (provider : Option String) (hwf : QueueWF q) :
    QueueWF (q.save_task_result task_id payload provider) := by
  intro pr hpr
  have hpr2 : pr ∈ updateWhere q.tasks task_id
      (fun r => { r with result_json := some payload, provider := provider }) :=
    hpr
  exact wf_updateWhere q.tasks q.nextId task_id _ hwf pr hpr2

theorem wf_create_task (q : TaskQueue) (tool_name query input_data : String)
    (output_file : Option String) (est : Option Int) (now : Nat)
    (hwf : QueueWF q) :
    QueueWF (q.create_task tool_name query input_data output_file est now).1 := by
  intro p hp
  simp only [TaskQueue.create_task, List.mem_cons] at hp
  rcases hp with rfl | hp
  · simp [TaskQueue.create_task]
  · have := hwf p hp
    simp only [TaskQueue.create_task]
    omega

theorem wf_cancel_task (q : TaskQueue) (task_id now : Nat) (hwf : QueueWF q) :
    QueueWF (q.cancel_task task_id now).1 := by
  unfold TaskQueue.cancel_task
  cases hg : q.get_task task_id
  · exact hwf
  · dsimp only
    split
    · exact wf_update_task_status _ _ _ _ _ _ hwf
    · exact hwf

theorem wf_workerStep (q : TaskQueue) (w : Worker) (now : Nat)
    (hwf : QueueWF q) : QueueWF (workerStep q w now).1 := by
  obtain ⟨tid, tools, ph⟩ := w
  cases ph with
  | ready =>
    cases hg : q.get_task tid <;> simp only [workerStep, hg] <;> exact hwf
  | claim t0 => exact wf_update_task_status _ _ _ _ _ _ hwf
  | lookup t0 =>
    cases hl : catalogLookup tools t0.tool_name <;>
      simp only [workerStep, hl] <;>
      exact wf_update_task_status _ _ _ _ _ _ hwf
  | invoke t0 beh =>
    cases ho : beh t0.input_json <;> simp only [workerStep, ho] <;>
      exact wf_update_task_status _ _ _ _ _ _ hwf
  | persist payload provider => exact wf_save_task_result _ _ _ _ hwf
  | finish => exact wf_update_task_status _ _ _ _ _ _ hwf

theorem wf_apply (s : Sys) (op : SysOp) (hwf : QueueWF s.q) :
    QueueWF (s.apply op).q := by
  cases op with
  | create tool_name query input_data output_file est now =>
    exact wf_create_task _ _ _ _ _ _ _ hwf
  | cancel task_id now => exact wf_cancel_task _ _ _ hwf
  | spawn task_id tools => exact hwf
  | work k now =>
    simp only [Sys.apply]
    cases hk : s.workers[k]? with
    | none => exact hwf
    | some w =>
      have hq := wf_workerStep s.q w now hwf
      rcases hws : workerStep s.q w now with ⟨q1, ow⟩
      rw [hws] at hq
      cases ow <;> simp only [hws] <;> exact hq

theorem nonpending_update (q : TaskQueue) (task_id id2 : Nat)
    (st : TaskStatus) (p : Option Int) (e : Option String) (now : Nat)
    (t : TaskRecord) (ht : q.get_task task_id = some t)
    (hnp : t.status ≠ .pending) (hst : st ≠ .pending) :
    ∃ t1, (q.update_task_status id2 st p e now).get_task task_id = some t1 ∧
      t1.status ≠ .pending := by
  by_cases hid : task_id = id2
  · subst hid
    rw [get_task_update_self, ht]
    exact ⟨_, rfl, by rw [applyStatusUpdate_status]; exact hst⟩
  · rw [get_task_update_other _ _ _ _ _ _ _ hid]
    exact ⟨t, ht, hnp⟩

theorem nonpending_save (q : TaskQueue) (task_id id2 : Nat) (payload : String)
    (provider : Option String) (t : TaskRecord)
    (ht : q.get_task task_id = some t) (hnp : t.status ≠ .pending) :
    ∃ t1, (q.save_task_result id2 payload provider).get_task task_id =
      some t1 ∧ t1.status ≠ .pending := by
  by_cases hid : task_id = id2
  · subst hid
    rw [get_task_save_self, ht]
    exact ⟨_, rfl, hnp⟩
  · rw [get_task_save_other _ _ _ _ _ hid]
    exact ⟨t, ht, hnp⟩

theorem nonpending_workerStep (q : TaskQueue) (w : Worker) (now : Nat)
    (task_id : Nat) (t : TaskRecord) (ht : q.get_task task_id = some t)
    (hnp : t.status ≠ .pending) :
    ∃ t1, (workerStep q w now).1.get_task task_id = some t1 ∧
      t1.status ≠ .pending := by
  obtain ⟨tid, tools, ph⟩ := w
  cases ph with
  | ready =>
    cases hg : q.get_task tid <;> simp only [workerStep, hg] <;>
      exact ⟨t, ht, hnp⟩
  | claim t0 =>
    exact nonpending_update _ _ _ _ _ _ _ _ ht hnp (by intro h; cases h)
  | lookup t0 =>
    cases hl : catalogLookup tools t0.tool_name <;>
      simp only [workerStep, hl] <;>
      exact nonpending_update _ _ _ _ _ _ _ _ ht hnp (by intro h; cases h)
  | invoke t0 beh =>
    cases ho : beh t0.input_json <;> simp only [workerStep, ho] <;>
      exact nonpending_update _ _ _ _ _ _ _ _ ht hnp (by intro h; cases h)
  | persist payload provider => exact nonpending_save _ _ _ _ _ _ ht hnp
  | finish =>
    exact nonpending_update _ _ _ _ _ _ _ _ ht hnp (by intro h; cases h)

theorem nonpending_apply (s : Sys) (op : SysOp) (task_id : Nat)
    (hwf : QueueWF s.q) (t : TaskRecord)
    (ht : s.q.get_task task_id = some t) (hnp : t.status ≠ .pending) :
    ∃ t1, (s.apply op).q.get_task task_id = some t1 ∧ t1.status ≠ .pending := by
  cases op with
  | create tool_name query input_data output_file est now =>
    have hlt := get_task_some_lt s.q task_id t hwf ht
    have hne : task_id ≠ s.q.nextId := by omega
    simp only [Sys.apply]
    rw [get_task_create_other _ _ _ _ _ _ _ _ hne]
    exact ⟨t, ht, hnp⟩
  | cancel id2 now =>
    simp only [Sys.apply, TaskQueue.cancel_task]
    cases hg : s.q.get_task id2
    · exact ⟨t, ht, hnp⟩
    · dsimp only
      split
      · exact nonpending_update _ _ _ _ _ _ _ _ ht hnp (by intro h; cases h)
      · exact ⟨t, ht, hnp⟩
  | spawn id2 tools => exact ⟨t, ht, hnp⟩
  | work k now =>
    simp only [Sys.apply]
    cases hk : s.workers[k]? with
    | none => exact ⟨t, ht, hnp⟩
    | some w =>
      have hq := nonpending_workerStep s.q w now task_id t ht hnp
      rcases hws : workerStep s.q w now with ⟨q1, ow⟩
      rw [hws] at hq
      cases ow <;> simp only [hws] <;> exact hq

theorem sys_run_preserves_nonpending (ops : List SysOp) (s : Sys)
    (task_id : Nat) (hwf : QueueWF s.q) (t : TaskRecord)
    (ht : s.q.get_task task_id = some t) (hnp : t.status ≠ .pending) :
    QueueWF (s.run ops).q ∧
    ∃ t1, (s.run ops).q.get_task task_id = some t1 ∧ t1.status ≠ .pending := by
  induction ops generalizing s t with
  | nil => exact ⟨hwf, t, ht, hnp⟩
  | cons op rest ih =>
    obtain ⟨t1, ht1, hnp1⟩ := nonpending_apply s op task_id hwf t ht hnp
    exact ih (s.apply op) (wf_apply s op hwf) t1 ht1 hnp1

/-- C3 counterexample: the claim that over reachable operation sequences no
task leaves a terminal state is false.  Create a task, let its worker claim
it (PENDING to RUNNING), then cancel it — the store shows the terminal
status CANCELLED — and then let the still-active worker continue: its next
unconditional `update_task_status(RUNNING, progress=30)` moves the task out
of CANCELLED back to RUNNING, and the remaining worker transactions drive it
to COMPLETED. -/
theorem cancel_race_breaks_state_machine :
    (((Sys.init.run
        [.create "t" "x" "{}" none none 0,
          .spawn 0 [("t", fun _ => ExecOutcome.ok "r" none)],
          .work 0 1, .work 0 1, .cancel 0 2]).q.get_task 0).map
      (fun r => r.status) = some .cancelled) ∧
    (((Sys.init.run
        [.create "t" "x" "{}" none none 0,
          .spawn 0 [("t", fun _ => ExecOutcome.ok "r" none)],
          .work 0 1, .work 0 1, .cancel 0 2, .work 0 3]).q.get_task 0).map
      (fun r => r.status) = some .running) ∧
    (((Sys.init.run
        [.create "t" "x" "{}" none none 0,
          .spawn 0 [("t", fun _ => ExecOutcome.ok "r" none)],
          .work 0 1, .work 0 1, .cancel 0 2, .work 0 3, .work 0 3, .work 0 3,
          .work 0 3]).q.get_task 0).map
      (fun r => r.status) = some .completed) :=
  ⟨rfl, rfl, rfl⟩

/-- C3 amended: over every reachable sequence of task-queue events
(create, cancel, worker spawn, atomic worker transactions, in any
interleaving) no task re-enters PENDING after leaving it — no event ever
writes the PENDING status onto an existing task.  The terminal-stability
half of the original claim is false (see the counterexample): a task
CANCELLED while its worker is mid-run is overwritten back to RUNNING and
then to COMPLETED or FAILED by the worker's remaining unconditional writes;
terminal states are only stable against `cancel_task` itself and against
sequences with no active worker for the task. -/
theorem no_pending_reentry (s : Sys) (ops : List SysOp) (task_id : Nat)
    (hwf : QueueWF s.q) (t t1 : TaskRecord)
    (ht : s.q.get_task task_id = some t) (hnp : t.status ≠ .pending)
    (ht1 : (s.run ops).q.get_task task_id = some t1) :
    t1.status ≠ .pending := by
  obtain ⟨-, t2, ht2, hnp2⟩ :=
    sys_run_preserves_nonpending ops s task_id hwf t ht hnp
  rw [ht1] at ht2
  injection ht2 with h
  exact h ▸ hnp2

/-- A RUNNING variant of the sample row, for witnesses. -/
def runningRow : TaskRecord := { sampleRow with status := .running }

theorem no_pending_reentry_witness :
    QueueWF (TaskQueue.mk [(0, runningRow)] 1) ∧
    (TaskQueue.mk [(0, runningRow)] 1).get_task 0 = some runningRow ∧
    runningRow.status ≠ .pending ∧
    ((Sys.mk (TaskQueue.mk [(0, runningRow)] 1) []).run
        [SysOp.cancel 0 5]).q.get_task 0 =
      some (applyStatusUpdate runningRow .cancelled none none 5) ∧
    (applyStatusUpdate runningRow .cancelled none none 5).status ≠ .pending :=
  ⟨by decide, rfl, by decide, by decide,
    no_pending_reentry (Sys.mk (TaskQueue.mk [(0, runningRow)] 1) [])
      [SysOp.cancel 0 5] 0 (by decide) runningRow
      (applyStatusUpdate runningRow .cancelled none none 5) rfl (by decide)
      (by decide)⟩

/-! ### Lemmas about the registry dictionaries -/

theorem discovered_discover (modules : List DomainModule) (s : Registry) :
    (discover_domains modules s).discovered = true := by
  unfold discover_domains
  split
  · assumption
  · rfl

theorem discover_of_discovered (modules : List DomainModule) (s : Registry)
    (h : s.discovered = true) : discover_domains modules s = s := by
  unfold discover_domains
  rw [if_pos h]

theorem hasKey_dictInsert {α : Type} (m : List (String × α)) (k k2 : String)
    (v : α) :
    hasKey (dictInsert m k v) k2 = true ↔ (k2 = k ∨ hasKey m k2 = true) := by
  by_cases hk : k2 = k
  · subst hk
    simp only [true_or, iff_true]
    unfold dictInsert
    split
    next h =>
      unfold hasKey
      rw [List.any_map]
      obtain ⟨p0, hp0, hpk⟩ := List.any_eq_true.mp h
      exact List.any_eq_true.mpr ⟨p0, hp0, by simp_all⟩
    next h =>
      unfold hasKey
      rw [List.any_append]
      simp
  · simp only [hk, false_or]
    unfold dictInsert
    split
    next h =>
      unfold hasKey
      rw [List.any_map]
      constructor
      · intro hx
        obtain ⟨p0, hp0, hpk⟩ := List.any_eq_true.mp hx
        refine List.any_eq_true.mpr ⟨p0, hp0, ?_⟩
        by_cases hc : p0.1 = k
        · exfalso
          simp only [Function.comp, hc, beq_self_eq_true, if_true,
            beq_iff_eq] at hpk
          exact hk hpk.symm
        · simpa [Function.comp, hc] using hpk
      · intro hx
        obtain ⟨p0, hp0, hpk⟩ := List.any_eq_true.mp hx
        refine List.any_eq_true.mpr ⟨p0, hp0, ?_⟩
        by_cases hc : p0.1 = k
        · exfalso
          simp only [beq_iff_eq] at hpk
          rw [hc] at hpk
          exact hk hpk.symm
        · simpa [Function.comp, hc] using hpk
    next h =>
      unfold hasKey
      rw [List.any_append]
      have hkv : ((k, v).1 == k2) = false := by
        simp only [beq_eq_false_iff_ne, ne_eq]
        exact fun he => hk he.symm
      simp [List.any_cons, hkv]

theorem hasKey_dictMerge {α : Type} (m : List (String × α)) :
    ∀ (t : List (String × α)) (k : String),
    hasKey (dictMerge t m) k = true ↔
      (hasKey t k = true ∨ hasKey m k = true) := by
  induction m with
  | nil => intro t k; simp [dictMerge, hasKey]
  | cons a l ih =>
    intro t k
    rw [show dictMerge t (a :: l) = dictMerge (dictInsert t a.1 a.2) l from rfl]
    rw [ih, hasKey_dictInsert]
    have : hasKey (a :: l) k = true ↔ (k = a.1 ∨ hasKey l k = true) := by
      simp only [hasKey, List.any_cons, Bool.or_eq_true, beq_iff_eq]
      rw [eq_comm]
    rw [this]
    tauto

theorem dictGet_eq_none {α : Type} (m : List (String × α)) (k : String)
    (h : hasKey m k = false) : dictGet m k = none := by
  unfold dictGet
  rw [Option.map_eq_none', List.find?_eq_none]
  intro p hp
  unfold hasKey at h
  have := List.any_eq_false.mp h p hp
  simpa using this

theorem hasKey_get_tools_fold (reg : List (String × Catalog))
    (ds : List String) (name : String) :
    ∀ acc : Catalog,
    hasKey (ds.foldl (mergeDomain reg) acc) name = true ↔
      (hasKey acc name = true ∨
        ∃ d ∈ ds, ∃ m, dictGet reg d = some m ∧ hasKey m name = true) := by
  induction ds with
  | nil => intro acc; simp
  | cons d rest ih =>
    intro acc
    rw [List.foldl_cons]
    cases hd : dictGet reg d with
    | none =>
      rw [show mergeDomain reg acc d = acc by simp [mergeDomain, hd]]
      rw [ih]
      simp only [List.exists_mem_cons_iff, hd]
      simp
    | some m =>
      rw [show mergeDomain reg acc d = dictMerge acc m by
        simp [mergeDomain, hd]]
      rw [ih, hasKey_dictMerge]
      simp only [List.exists_mem_cons_iff, hd]
      constructor
      · rintro ((h | h) | h)
        · exact Or.inl h
        · exact Or.inr (Or.inl ⟨m, rfl, h⟩)
        · exact Or.inr (Or.inr h)
      · rintro (h | ⟨m2, hm2, h⟩ | h)
        · exact Or.inl (Or.inl h)
        · injection hm2 with he
          exact Or.inl (Or.inr (he ▸ h))
        · exact Or.inr h

/-- C9: discovery is idempotent — a second `discover_domains` call returns
the registry unchanged, so any number of calls yields the catalog of one
call; and `get_tools` restricted to a list of domains returns the merge of
the per-domain dictionaries of exactly those requested domains that exist in
the catalog (a tool name is in the result iff some requested domain's dict
contains it), an unknown domain contributing nothing rather than raising:
appending an unknown domain to the filter leaves the result unchanged. -/
theorem registry_spec (modules : List DomainModule) (s : Registry)
    (domains : List String) (d name : String) :
    (discover_domains modules (discover_domains modules s) =
      discover_domains modules s) ∧
    (hasKey (get_tools modules s (some domains)).2 name = true ↔
      ∃ dd ∈ domains, ∃ m,
        dictGet (discover_domains modules s).tool_registry dd = some m ∧
        hasKey m name = true) ∧
    (hasKey (discover_domains modules s).tool_registry d = false →
      (get_tools modules s (some (domains ++ [d]))).2 =
        (get_tools modules s (some domains)).2) := by
  refine ⟨discover_of_discovered _ _ (discovered_discover _ _), ?_, ?_⟩
  · unfold get_tools
    dsimp only
    rw [hasKey_get_tools_fold]
    simp only [hasKey, List.any_nil, Bool.false_eq_true, false_or]
    exact Iff.rfl
  · intro hunk
    unfold get_tools
    dsimp only
    rw [List.foldl_append, List.foldl_cons, List.foldl_nil]
    unfold mergeDomain
    rw [dictGet_eq_none _ _ hunk]

theorem registry_spec_witness :
    hasKey (discover_domains [] (Registry.mk [] false)).tool_registry "x" =
      false ∧
    (get_tools [] (Registry.mk [] false) (some (["w"] ++ ["x"]))).2 =
      (get_tools [] (Registry.mk [] false) (some ["w"])).2 :=
  ⟨rfl, (registry_spec [] (Registry.mk [] false) ["w"] "x" "n").2.2 rfl⟩

end UltraSearch
